import Mathlib

/-!
# Verification of `terrier::planner::SeqScanPlanNode`

A shallow embedding of `src/include/planner/plannodes/seq_scan_plan_node.h`
(the sequential-scan plan node of the terrier query planner) together with
proofs of the specified properties.

The header under verification defines, inline: the `Builder` (with
`SetTableOid`, `SetColumnOids`, `Build`), the accessors `GetColumnIds`,
`GetTableOid`, `GetPlanNodeType`, and the oid-collection algorithm
`CollectInputOids` / `CollectOids`.  The bodies of `Hash`, `operator==`,
`ToJson` and `FromJson` live in a translation unit that is not part of the
verified sources; those operations are modelled from the specification
(each such definition is marked `Modelled from the spec:`).

Catalog identifier types (`db_oid_t`, `namespace_oid_t`, `table_oid_t`,
`col_oid_t`) are opaque small integral values with equality and hash; they
are embedded as `Nat`.
-/

namespace Terrier

/-- Catalog column identifier (`catalog::col_oid_t`). -/
abbrev col_oid_t := Nat

/-- Catalog table identifier (`catalog::table_oid_t`). -/
abbrev table_oid_t := Nat

/-- Catalog database identifier (`catalog::db_oid_t`). -/
abbrev db_oid_t := Nat

/-- Catalog namespace identifier (`catalog::namespace_oid_t`). -/
abbrev namespace_oid_t := Nat

/-- Expression kinds other than `COLUMN_VALUE` (`parser::ExpressionType`).
Only the distinction "is / is not `COLUMN_VALUE`" matters to the plan node;
a few representative non-column kinds are carried so that trees with mixed
interior nodes can be built. -/
inductive OtherExprType where
  | CONSTANT
  | COMPARE_EQUAL
  | CONJUNCTION_AND
  | OPERATOR_PLUS
  deriving DecidableEq, Repr

/-- The expression-type discriminant returned by `GetExpressionType()`. -/
inductive ExpressionType where
  | COLUMN_VALUE
  | nonColumn (t : OtherExprType)
  deriving DecidableEq, Repr

/-- Embeds `parser::AbstractExpression`: a polymorphic scalar-expression tree.
The `columnValue` variant is `parser::ColumnValueExpression`, the only
variant carrying a column oid (read through `GetColumnOid()` after the
`static_cast` in `CollectOids`); every variant exposes `GetChildren()`. -/
inductive Expr where
  | columnValue (column_oid : col_oid_t) (children : List Expr)
  | otherExpr (etype : OtherExprType) (children : List Expr)

namespace Expr

mutual

/-- Structural (boolean) equality of expression trees, the expression
module's own equality that scan-predicate comparison delegates to. -/
def beq : Expr → Expr → Bool
  | .columnValue o1 c1, .columnValue o2 c2 => o1 == o2 && beqChildren c1 c2
  | .otherExpr t1 c1, .otherExpr t2 c2 => t1 == t2 && beqChildren c1 c2
  | _, _ => false

/-- Element-wise structural equality of child lists. -/
def beqChildren : List Expr → List Expr → Bool
  | [], [] => true
  | a :: as, b :: bs => beq a b && beqChildren as bs
  | _, _ => false

end

mutual

theorem beq_iff_eq : (a b : Expr) → (beq a b = true ↔ a = b)
  | .columnValue o1 c1, .columnValue o2 c2 => by
    simp [beq, beqChildren_iff_eq c1 c2]
  | .columnValue _ _, .otherExpr _ _ => by simp [beq]
  | .otherExpr _ _, .columnValue _ _ => by simp [beq]
  | .otherExpr t1 c1, .otherExpr t2 c2 => by
    simp [beq, beqChildren_iff_eq c1 c2]

theorem beqChildren_iff_eq : (as bs : List Expr) → (beqChildren as bs = true ↔ as = bs)
  | [], [] => by simp [beqChildren]
  | [], _ :: _ => by simp [beqChildren]
  | _ :: _, [] => by simp [beqChildren]
  | a :: as, b :: bs => by
    simp [beqChildren, beq_iff_eq a b, beqChildren_iff_eq as bs]

end

instance : DecidableEq Expr := fun a b =>
  decidable_of_iff (beq a b = true) (beq_iff_eq a b)

/-- Embeds `AbstractExpression::GetExpressionType()`. -/
def GetExpressionType : Expr → ExpressionType
  | .columnValue _ _ => ExpressionType.COLUMN_VALUE
  | .otherExpr t _ => ExpressionType.nonColumn t

/-- Embeds `AbstractExpression::GetChildren()`. -/
def GetChildren : Expr → List Expr
  | .columnValue _ cs => cs
  | .otherExpr _ cs => cs

/-- Embeds `ColumnValueExpression::GetColumnOid()`.  In the source this accessor
exists only on the `COLUMN_VALUE` variant and is reached through a
`static_cast`; on any other variant the cast is never taken, so the value
returned for `otherExpr` below is irrelevant (and provably never used). -/
def GetColumnOid : Expr → col_oid_t
  | .columnValue oid _ => oid
  | .otherExpr _ _ => 0

end Expr

mutual

/-- Embeds `SeqScanPlanNode::CollectOids` (source, lines 146-155): append to the
accumulated `result` every column oid found by the recursive walk of
`expr`.  At a `COLUMN_VALUE` node the walk records `GetColumnOid()` and
stops; at any other node it recurses into each child in order. -/
def CollectOids (result : List col_oid_t) (expr : Expr) : List col_oid_t :=
  match expr with
  | .columnValue oid _ => result ++ [oid]
  | .otherExpr _ children => CollectOidsChildren result children

/-- The `for (const auto &child : expr->GetChildren())` loop in
`CollectOids`, threading the accumulator left to right. -/
def CollectOidsChildren (result : List col_oid_t) (es : List Expr) : List col_oid_t :=
  match es with
  | [] => result
  | e :: rest => CollectOidsChildren (CollectOids result e) rest

end

mutual

/-- The sequence of oids emitted by the walk of one expression, without the
accumulator (the pure counterpart of `CollectOids`). -/
def collectedOids : Expr → List col_oid_t
  | .columnValue oid _ => [oid]
  | .otherExpr _ children => collectedOidsChildren children

/-- Embeds `collectedOids` over a child list, concatenated in order. -/
def collectedOidsChildren : List Expr → List col_oid_t
  | [] => []
  | e :: rest => collectedOids e ++ collectedOidsChildren rest

end

mutual

/-- Visibility of a column oid to the walk: true exactly when some
`COLUMN_VALUE` node carrying `c` is reachable from the root without
passing through another `COLUMN_VALUE` node (the positions `CollectOids`
records). -/
def visibleOid (c : col_oid_t) : Expr → Bool
  | .columnValue oid _ => decide (c = oid)
  | .otherExpr _ cs => visibleOidChildren c cs

/-- Visibility of a column oid in some element of a child list. -/
def visibleOidChildren (c : col_oid_t) : List Expr → Bool
  | [] => false
  | e :: rest => visibleOid c e || visibleOidChildren c rest

end

mutual

/-- Occurrence of a column oid anywhere in the tree: true when some
`COLUMN_VALUE` node carrying `c` exists at any depth, including inside
the children of another `COLUMN_VALUE` node. -/
def mentionsOid (c : col_oid_t) : Expr → Bool
  | .columnValue oid cs => decide (c = oid) || mentionsOidChildren c cs
  | .otherExpr _ cs => mentionsOidChildren c cs

/-- Occurrence of a column oid anywhere in some element of a child list. -/
def mentionsOidChildren (c : col_oid_t) : List Expr → Bool
  | [] => false
  | e :: rest => mentionsOid c e || mentionsOidChildren c rest

end

mutual

/-- Well-formedness of an expression tree: every `COLUMN_VALUE` node is a
leaf, as the expression module builds them. -/
def wellFormedExpr : Expr → Bool
  | .columnValue _ cs => decide (cs = [])
  | .otherExpr _ cs => wellFormedExprChildren cs

/-- Well-formedness of every element of a child list. -/
def wellFormedExprChildren : List Expr → Bool
  | [] => true
  | e :: rest => wellFormedExpr e && wellFormedExprChildren rest

end

/-- One column of an `OutputSchema`: carries the expression describing how
the column's value is produced, exposed by `GetExpr()`. -/
structure OutputColumn where
  expr : Expr
  deriving DecidableEq

/-- Embeds `OutputSchema`: the ordered list of output columns owned by a plan
node, exposed by `GetColumns()`. -/
structure OutputSchema where
  columns : List OutputColumn
  deriving DecidableEq

/-- Embeds `OutputSchema::GetColumns()`. -/
def OutputSchema.GetColumns (s : OutputSchema) : List OutputColumn := s.columns

/-- Embeds `OutputSchema::Column::GetExpr()`. -/
def OutputColumn.GetExpr (c : OutputColumn) : Expr := c.expr

/-- Embeds `PlanNodeType`: the plan-node discriminant.  `SEQSCAN` is the value
returned by `SeqScanPlanNode::GetPlanNodeType()`; a few other variants are
carried so that cross-variant comparison can be stated. -/
inductive PlanNodeType where
  | SEQSCAN
  | INDEXSCAN
  | CSVSCAN
  | INSERT
  deriving DecidableEq

/-- Embeds `AbstractPlanNode`, flattened over the hierarchy
`AbstractPlanNode` → `AbstractScanPlanNode` → concrete scan variant: a
discriminant plus the base fields (children, output schema), the scan
fields (nullable predicate reference, is-for-update flag, database and
namespace oids) and the seq-scan payload (column-oid list, table oid).  A
node whose discriminant is `SEQSCAN` is exactly a `SeqScanPlanNode`; the
`static_cast` after the discriminant test in `operator==` is the identity
on this representation. -/
inductive AbstractPlanNode where
  | mk (plan_node_type : PlanNodeType)
       (children : List AbstractPlanNode)
       (output_schema : OutputSchema)
       (scan_predicate : Option Expr)
       (is_for_update : Bool)
       (database_oid : db_oid_t)
       (namespace_oid : namespace_oid_t)
       (column_oids : List col_oid_t)
       (table_oid : table_oid_t)

/-- Embeds `AbstractPlanNode::GetPlanNodeType()`. -/
def AbstractPlanNode.GetPlanNodeType : AbstractPlanNode → PlanNodeType
  | .mk t _ _ _ _ _ _ _ _ => t

mutual

/-- Modelled from the spec: the structural-equality chain of the base
classes `AbstractPlanNode::operator==` / `AbstractScanPlanNode::operator==`
(their bodies are not under the verified sources) — discriminant, children
recursively, output schema, structural predicate comparison, is-for-update
flag, database and namespace oids, and the variant payload. -/
def nodeBeq : AbstractPlanNode → AbstractPlanNode → Bool
  | .mk t1 ch1 os1 pr1 u1 d1 n1 co1 to1, .mk t2 ch2 os2 pr2 u2 d2 n2 co2 to2 =>
    t1 == t2 && nodeBeqChildren ch1 ch2 && os1 == os2 && pr1 == pr2 &&
      u1 == u2 && d1 == d2 && n1 == n2 && co1 == co2 && to1 == to2

/-- Element-wise structural equality of child plan-node lists. -/
def nodeBeqChildren : List AbstractPlanNode → List AbstractPlanNode → Bool
  | [], [] => true
  | a :: as, b :: bs => nodeBeq a b && nodeBeqChildren as bs
  | _, _ => false

end

mutual

theorem nodeBeq_iff_eq : (a b : AbstractPlanNode) → (nodeBeq a b = true ↔ a = b)
  | .mk t1 ch1 os1 pr1 u1 d1 n1 co1 to1, .mk t2 ch2 os2 pr2 u2 d2 n2 co2 to2 => by
    simp [nodeBeq, nodeBeqChildren_iff_eq ch1 ch2, and_assoc]

theorem nodeBeqChildren_iff_eq :
    (as bs : List AbstractPlanNode) → (nodeBeqChildren as bs = true ↔ as = bs)
  | [], [] => by simp [nodeBeqChildren]
  | [], _ :: _ => by simp [nodeBeqChildren]
  | _ :: _, [] => by simp [nodeBeqChildren]
  | a :: as, b :: bs => by
    simp [nodeBeqChildren, nodeBeq_iff_eq a b, nodeBeqChildren_iff_eq as bs]

end

instance : DecidableEq AbstractPlanNode := fun a b =>
  decidable_of_iff (nodeBeq a b = true) (nodeBeq_iff_eq a b)

/-- Embeds `SeqScanPlanNode`: the sequential-scan plan node.  Fields in the order
of the private constructor: the inherited base/scan fields followed by the
column-oid list and the table oid. -/
structure SeqScanPlanNode where
  children : List AbstractPlanNode
  output_schema : OutputSchema
  scan_predicate : Option Expr
  is_for_update : Bool
  database_oid : db_oid_t
  namespace_oid : namespace_oid_t
  column_oids : List col_oid_t
  table_oid : table_oid_t
  deriving DecidableEq

namespace SeqScanPlanNode

/-- The view of a `SeqScanPlanNode` as an `AbstractPlanNode` (the upcast):
discriminant `SEQSCAN` with the same fields. -/
def toAbstract (n : SeqScanPlanNode) : AbstractPlanNode :=
  .mk PlanNodeType.SEQSCAN n.children n.output_schema n.scan_predicate
    n.is_for_update n.database_oid n.namespace_oid n.column_oids n.table_oid

/-- Embeds `SeqScanPlanNode::GetPlanNodeType()` (source, line 105): always
`SEQSCAN`. -/
def GetPlanNodeType (_ : SeqScanPlanNode) : PlanNodeType := PlanNodeType.SEQSCAN

/-- Embeds `SeqScanPlanNode::GetColumnIds()` (source, line 110). -/
def GetColumnIds (n : SeqScanPlanNode) : List col_oid_t := n.column_oids

/-- Embeds `SeqScanPlanNode::GetTableOid()` (source, line 115). -/
def GetTableOid (n : SeqScanPlanNode) : table_oid_t := n.table_oid

/-- Embeds `AbstractScanPlanNode::GetScanPredicate()`: the nullable predicate
reference (`none` embeds the null `ManagedPointer`). -/
def GetScanPredicate (n : SeqScanPlanNode) : Option Expr := n.scan_predicate

/-- Embeds `AbstractPlanNode::GetOutputSchema()`. -/
def GetOutputSchema (n : SeqScanPlanNode) : OutputSchema := n.output_schema

/-- Embeds `SeqScanPlanNode::CollectInputOids` (source, lines 131-143): walk the
scan predicate (when non-null) and every output-schema column's
expression with `CollectOids`, then remove duplicates.  The source pours
`result` through a `std::unordered_set` and back, which preserves exactly
the set of elements and leaves them pairwise distinct but in an
unspecified order; the embedding realises that dedup step with
`List.dedup`, and every property proved about the result is
order-insensitive (membership, `Nodup`, `toFinset`). -/
def CollectInputOids (n : SeqScanPlanNode) : List col_oid_t :=
  let result : List col_oid_t := []
  let result :=
    match n.GetScanPredicate with
    | some p => CollectOids result p
    | none => result
  let result := (n.GetOutputSchema.GetColumns).foldl
    (fun r col => CollectOids r col.GetExpr) result
  result.dedup

/-- Embeds `SeqScanPlanNode::Builder` (source, lines 25-72): transient mutable
accumulator of constructor arguments.  `column_oids_` and `table_oid_`
are declared in the source; the remaining fields are the inherited
builder state of `AbstractScanPlanNode::Builder` /
`AbstractPlanNode::Builder`, modelled from the spec. -/
structure Builder where
  children_ : List AbstractPlanNode
  output_schema_ : OutputSchema
  scan_predicate_ : Option Expr
  is_for_update_ : Bool
  database_oid_ : db_oid_t
  namespace_oid_ : namespace_oid_t
  column_oids_ : List col_oid_t
  table_oid_ : table_oid_t

namespace Builder

/-- Modelled from the spec: the state of a default-constructed `Builder()`,
except for `column_oids_`, which the source declares as a
default-constructed `std::vector` and is therefore empty.  The missing
parts are the inherited builder state of `AbstractScanPlanNode::Builder` /
`AbstractPlanNode::Builder` (no children, empty output schema, null
predicate, not-for-update, default oids) and the default/sentinel value of
the catalog identifier type taken for `table_oid_` — `catalog_defs.h` and
the base builders are outside the verified sources. -/
def new : Builder := ⟨[], ⟨[]⟩, none, false, 0, 0, [], 0⟩

/-- Embeds `Builder::SetTableOid` (source, lines 38-41). -/
def SetTableOid (b : Builder) (oid : table_oid_t) : Builder :=
  { b with table_oid_ := oid }

/-- Embeds `Builder::SetColumnOids` (source, lines 47-50): moves the given
sequence into the builder verbatim. -/
def SetColumnOids (b : Builder) (column_oids : List col_oid_t) : Builder :=
  { b with column_oids_ := column_oids }

/-- Modelled from the spec: `AbstractScanPlanNode::Builder::SetScanPredicate`
(not under the verified sources) records the externally owned predicate
reference. -/
def SetScanPredicate (b : Builder) (predicate : Expr) : Builder :=
  { b with scan_predicate_ := some predicate }

/-- Modelled from the spec: `AbstractPlanNode::Builder::SetOutputSchema`
(not under the verified sources). -/
def SetOutputSchema (b : Builder) (schema : OutputSchema) : Builder :=
  { b with output_schema_ := schema }

/-- Modelled from the spec: `AbstractPlanNode::Builder::AddChild` (not under
the verified sources) appends one child plan node. -/
def AddChild (b : Builder) (child : AbstractPlanNode) : Builder :=
  { b with children_ := b.children_ ++ [child] }

/-- Embeds `Builder::Build` (source, lines 56-60): invokes the private
constructor with the accumulated fields, performing no field-presence
validation. -/
def Build (b : Builder) : SeqScanPlanNode :=
  ⟨b.children_, b.output_schema_, b.scan_predicate_, b.is_for_update_,
    b.database_oid_, b.namespace_oid_, b.column_oids_, b.table_oid_⟩

end Builder

end SeqScanPlanNode

/-- Embeds `AbstractPlanNode::GetChildren()`. -/
def AbstractPlanNode.GetChildren : AbstractPlanNode → List AbstractPlanNode
  | .mk _ ch _ _ _ _ _ _ _ => ch

/-- Embeds `AbstractPlanNode::GetOutputSchema()`. -/
def AbstractPlanNode.GetOutputSchema : AbstractPlanNode → OutputSchema
  | .mk _ _ os _ _ _ _ _ _ => os

/-- Embeds `AbstractScanPlanNode::GetScanPredicate()` on the flattened node. -/
def AbstractPlanNode.GetScanPredicate : AbstractPlanNode → Option Expr
  | .mk _ _ _ pr _ _ _ _ _ => pr

/-- Embeds `AbstractScanPlanNode::IsForUpdate()` on the flattened node. -/
def AbstractPlanNode.IsForUpdate : AbstractPlanNode → Bool
  | .mk _ _ _ _ u _ _ _ _ => u

/-- Embeds `AbstractScanPlanNode::GetDatabaseOid()` on the flattened node. -/
def AbstractPlanNode.GetDatabaseOid : AbstractPlanNode → db_oid_t
  | .mk _ _ _ _ _ d _ _ _ => d

/-- Embeds `AbstractScanPlanNode::GetNamespaceOid()` on the flattened node. -/
def AbstractPlanNode.GetNamespaceOid : AbstractPlanNode → namespace_oid_t
  | .mk _ _ _ _ _ _ nso _ _ => nso

/-- The column-oid payload of the flattened node (the field read back by
`SeqScanPlanNode::GetColumnIds()` after the downcast). -/
def AbstractPlanNode.GetColumnOids : AbstractPlanNode → List col_oid_t
  | .mk _ _ _ _ _ _ _ co _ => co

/-- The table-oid payload of the flattened node (the field read back by
`SeqScanPlanNode::GetTableOid()` after the downcast). -/
def AbstractPlanNode.GetTableOid : AbstractPlanNode → table_oid_t
  | .mk _ _ _ _ _ _ _ _ toid => toid

/-- Modelled from the spec: `SeqScanPlanNode::operator==` (its body is not
under the verified sources).  Returns false immediately when the
right-hand node's discriminant differs from `SEQSCAN` (safe downcast
guard); otherwise combines the base scan-node equality with table-id
equality and order-sensitive column-id-sequence equality. -/
def SeqScanPlanNode.opEq (n : SeqScanPlanNode) (rhs : AbstractPlanNode) : Bool :=
  if rhs.GetPlanNodeType ≠ PlanNodeType.SEQSCAN then false
  else
    match rhs with
    | .mk _ ch os pr u d nso co toid =>
      (nodeBeqChildren n.children ch && decide (n.output_schema = os) &&
        decide (n.scan_predicate = pr) && (n.is_for_update == u) &&
        decide (n.database_oid = d) && decide (n.namespace_oid = nso)) &&
      decide (n.table_oid = toid) && decide (n.column_oids = co)

/-- One step of hash mixing over `common::hash_t` (a 64-bit value): a
deterministic combiner; only determinism and congruence matter to the
stated properties. -/
def hashCombine (l r : Nat) : Nat := (l * 1099511628211 + r + 97) % (2 ^ 64)

/-- Numeric tag of an `OtherExprType`, fed to the expression hash. -/
def OtherExprType.tag : OtherExprType → Nat
  | .CONSTANT => 0
  | .COMPARE_EQUAL => 1
  | .CONJUNCTION_AND => 2
  | .OPERATOR_PLUS => 3

/-- Numeric tag of a `PlanNodeType`, fed to the plan-node hash. -/
def PlanNodeType.tag : PlanNodeType → Nat
  | .SEQSCAN => 0
  | .INDEXSCAN => 1
  | .CSVSCAN => 2
  | .INSERT => 3

mutual

/-- Structural hash of an expression tree (the expression module's own
`Hash`, which predicate hashing delegates to). -/
def Expr.hashE : Expr → Nat
  | .columnValue oid cs => hashCombine (hashCombine 5 oid) (Expr.hashChildrenE cs)
  | .otherExpr t cs => hashCombine (hashCombine 6 t.tag) (Expr.hashChildrenE cs)

/-- Hash of a child-expression list, mixed in order. -/
def Expr.hashChildrenE : List Expr → Nat
  | [] => 7
  | e :: rest => hashCombine (Expr.hashE e) (Expr.hashChildrenE rest)

end

/-- Hash of the nullable predicate reference. -/
def hashPredicate : Option Expr → Nat
  | none => 13
  | some e => hashCombine 17 e.hashE

/-- Hash of an `OutputSchema`: the column expressions' hashes mixed in
order. -/
def OutputSchema.hashS (s : OutputSchema) : Nat :=
  (s.columns.map (fun c => c.expr.hashE)).foldl hashCombine 19

/-- Hash of a column-oid sequence in stored order. -/
def hashOidList (xs : List Nat) : Nat := xs.foldl hashCombine 23

mutual

/-- Modelled from the spec: the `Hash()` of an arbitrary plan node (the
base-class bodies are not under the verified sources) — a deterministic
combined hash of all structurally relevant fields, children recursively. -/
def nodeHash : AbstractPlanNode → Nat
  | .mk t ch os pr u d nso co toid =>
    hashCombine
      (hashCombine
        (hashCombine
          (hashCombine
            (hashCombine
              (hashCombine
                (hashCombine (hashCombine t.tag (nodeHashChildren ch)) os.hashS)
                (hashPredicate pr))
              (cond u 1 0))
            d)
          nso)
        (hashOidList co))
      toid

/-- Hash of a child plan-node list, mixed in order. -/
def nodeHashChildren : List AbstractPlanNode → Nat
  | [] => 29
  | n :: rest => hashCombine (nodeHash n) (nodeHashChildren rest)

end

/-- Modelled from the spec: the base scan-node `Hash()`
(`AbstractScanPlanNode::Hash` composed with `AbstractPlanNode::Hash`,
neither under the verified sources) — discriminant, children, output
schema, predicate, is-for-update flag, database and namespace oids. -/
def baseScanHash (t : PlanNodeType) (ch : List AbstractPlanNode)
    (os : OutputSchema) (pr : Option Expr) (u : Bool)
    (d : db_oid_t) (nso : namespace_oid_t) : Nat :=
  hashCombine
    (hashCombine
      (hashCombine
        (hashCombine
          (hashCombine (hashCombine t.tag (nodeHashChildren ch)) os.hashS)
          (hashPredicate pr))
        (cond u 1 0))
      d)
    nso

/-- Modelled from the spec: `SeqScanPlanNode::Hash` (its body is not under
the verified sources) combines the base scan-node hash with the table
id's hash and a hash over the column-id sequence in stored order. -/
def SeqScanPlanNode.Hash (n : SeqScanPlanNode) : Nat :=
  hashCombine
    (hashCombine
      (baseScanHash PlanNodeType.SEQSCAN n.children n.output_schema
        n.scan_predicate n.is_for_update n.database_oid n.namespace_oid)
      n.table_oid)
    (hashOidList n.column_oids)

/-- JSON-like documents (the serialized form of `nlohmann::json` values
produced and consumed by `ToJson` / `FromJson`). -/
inductive Json where
  | null
  | bool (b : Bool)
  | num (n : Nat)
  | str (s : String)
  | arr (elems : List Json)
  | obj (fields : List (String × Json))

/-- Key lookup in the field list of a JSON object (first match wins, as in
`nlohmann::json::at`). -/
def lookupField : List (String × Json) → String → Option Json
  | [], _ => none
  | (k, v) :: rest, key => if k = key then some v else lookupField rest key

/-- Field access on a JSON document: defined on objects, failing on every
other shape. -/
def Json.getField : Json → String → Option Json
  | .obj fields, key => lookupField fields key
  | .null, _ => none
  | .bool _, _ => none
  | .num _, _ => none
  | .str _, _ => none
  | .arr _, _ => none

theorem lookupField_sizeOf :
    (fs : List (String × Json)) → (k : String) → (v : Json) →
    lookupField fs k = some v → sizeOf v < sizeOf fs
  | [], _, _, h => by simp [lookupField] at h
  | (k0, v0) :: rest, k, v, h => by
    by_cases hk : k0 = k
    · simp [lookupField, hk] at h
      subst h
      simp
      omega
    · simp [lookupField, hk] at h
      have := lookupField_sizeOf rest k v h
      simp
      omega

theorem getField_sizeOf {j v : Json} {k : String}
    (h : j.getField k = some v) : sizeOf v < sizeOf j := by
  match j with
  | .obj fields =>
    simp [Json.getField] at h
    have := lookupField_sizeOf fields k v h
    simp
    omega
  | .null | .bool _ | .num _ | .str _ | .arr _ => simp [Json.getField] at h

/-- Serialized name of an `OtherExprType`. -/
def OtherExprType.typeName : OtherExprType → String
  | .CONSTANT => "CONSTANT"
  | .COMPARE_EQUAL => "COMPARE_EQUAL"
  | .CONJUNCTION_AND => "CONJUNCTION_AND"
  | .OPERATOR_PLUS => "OPERATOR_PLUS"

/-- Parse an `OtherExprType` back from its serialized name. -/
def otherExprTypeOfName (s : String) : Option OtherExprType :=
  if s = "CONSTANT" then some OtherExprType.CONSTANT
  else if s = "COMPARE_EQUAL" then some OtherExprType.COMPARE_EQUAL
  else if s = "CONJUNCTION_AND" then some OtherExprType.CONJUNCTION_AND
  else if s = "OPERATOR_PLUS" then some OtherExprType.OPERATOR_PLUS
  else none

/-- Serialized name of a `PlanNodeType` (the `"type"` discriminant of the
document). -/
def PlanNodeType.typeName : PlanNodeType → String
  | .SEQSCAN => "SEQSCAN"
  | .INDEXSCAN => "INDEXSCAN"
  | .CSVSCAN => "CSVSCAN"
  | .INSERT => "INSERT"

/-- Parse a `PlanNodeType` back from its serialized name. -/
def planNodeTypeOfName (s : String) : Option PlanNodeType :=
  if s = "SEQSCAN" then some PlanNodeType.SEQSCAN
  else if s = "INDEXSCAN" then some PlanNodeType.INDEXSCAN
  else if s = "CSVSCAN" then some PlanNodeType.CSVSCAN
  else if s = "INSERT" then some PlanNodeType.INSERT
  else none

mutual

/-- Serialization of an expression tree (the expression module's own
`ToJson`, which predicate serialization delegates to): the discriminant,
the column oid on the `COLUMN_VALUE` variant, and the children in order. -/
def Expr.toJson : Expr → Json
  | .columnValue oid cs =>
    .obj [("expression_type", .str "COLUMN_VALUE"), ("column_oid", .num oid),
          ("children", .arr (Expr.childrenToJson cs))]
  | .otherExpr t cs =>
    .obj [("expression_type", .str t.typeName),
          ("children", .arr (Expr.childrenToJson cs))]

/-- Serialization of a child-expression list, in order. -/
def Expr.childrenToJson : List Expr → List Json
  | [] => []
  | e :: rest => Expr.toJson e :: Expr.childrenToJson rest

end

mutual

/-- Deserialization of an expression tree, failing on any document that
does not carry the expected fields. -/
def Expr.fromJson (j : Json) : Option Expr :=
  match j.getField "expression_type" with
  | some (.str t) =>
    match h2 : j.getField "children" with
    | some (.arr cjs) =>
      match Expr.childrenFromJson cjs with
      | some cs =>
        if t = "COLUMN_VALUE" then
          match j.getField "column_oid" with
          | some (.num oid) => some (.columnValue oid cs)
          | _ => none
        else
          match otherExprTypeOfName t with
          | some ty => some (.otherExpr ty cs)
          | none => none
      | none => none
    | _ => none
  | _ => none
termination_by sizeOf j
decreasing_by
  have h3 := getField_sizeOf h2
  simp at h3
  omega

/-- Deserialization of a child-expression list, failing when any element
fails. -/
def Expr.childrenFromJson (js : List Json) : Option (List Expr) :=
  match js with
  | [] => some []
  | j :: rest =>
    match Expr.fromJson j, Expr.childrenFromJson rest with
    | some e, some es => some (e :: es)
    | _, _ => none
termination_by sizeOf js
decreasing_by
  all_goals simp
  all_goals omega

end

/-- Serialization of the nullable predicate reference: `null` when absent,
the expression document otherwise. -/
def predicateToJson : Option Expr → Json
  | none => .null
  | some e => e.toJson

/-- Deserialization of the nullable predicate: `null` means no predicate;
any other document must parse as an expression (freshly allocated, to be
re-attached by the caller). -/
def predicateFromJson : Json → Option (Option Expr)
  | .null => some none
  | j => (Expr.fromJson j).map some

/-- Serialization of one output-schema column. -/
def OutputColumn.toJson (c : OutputColumn) : Json :=
  .obj [("expr", c.expr.toJson)]

/-- Deserialization of one output-schema column. -/
def OutputColumn.fromJson (j : Json) : Option OutputColumn :=
  match j.getField "expr" with
  | some ej => (Expr.fromJson ej).map (fun e => ⟨e⟩)
  | none => none

/-- Deserialization of an output-column list, failing when any element
fails. -/
def outputColumnsFromJson : List Json → Option (List OutputColumn)
  | [] => some []
  | j :: rest =>
    match OutputColumn.fromJson j, outputColumnsFromJson rest with
    | some c, some cs => some (c :: cs)
    | _, _ => none

/-- Serialization of an `OutputSchema`: its columns in order. -/
def OutputSchema.toJson (s : OutputSchema) : Json :=
  .obj [("columns", .arr (s.columns.map OutputColumn.toJson))]

/-- Deserialization of an `OutputSchema`. -/
def OutputSchema.fromJson (j : Json) : Option OutputSchema :=
  match j.getField "columns" with
  | some (.arr cjs) => (outputColumnsFromJson cjs).map (fun cs => ⟨cs⟩)
  | _ => none

/-- Deserialization of a column-oid array. -/
def oidListFromJson : List Json → Option (List Nat)
  | [] => some []
  | .num n :: rest => (oidListFromJson rest).map (fun ns2 => n :: ns2)
  | _ :: _ => none

mutual

/-- Modelled from the spec: `ToJson` of an arbitrary plan node (the bodies
are not under the verified sources) — the serialized form lists the
discriminant, the children, the output schema, the predicate (or null),
the is-for-update flag, the database, namespace and table oids, and the
column-oid sequence. -/
def AbstractPlanNode.toJson : AbstractPlanNode → Json
  | .mk t ch os pr u d nso co toid =>
    .obj [("type", .str t.typeName),
          ("children", .arr (AbstractPlanNode.childrenToJson ch)),
          ("output_schema", os.toJson),
          ("predicate", predicateToJson pr),
          ("is_for_update", .bool u),
          ("database_oid", .num d),
          ("namespace_oid", .num nso),
          ("table_oid", .num toid),
          ("column_oids", .arr (co.map Json.num))]

/-- Serialization of a child plan-node list, in order. -/
def AbstractPlanNode.childrenToJson : List AbstractPlanNode → List Json
  | [] => []
  | n :: rest => AbstractPlanNode.toJson n :: AbstractPlanNode.childrenToJson rest

end

mutual

/-- Modelled from the spec: `FromJson` of an arbitrary plan node (the
bodies are not under the verified sources) — populates every field from
the document and fails (the MalformedPlan error, embedded as `none`) when
a required field is missing or has the wrong shape. -/
def AbstractPlanNode.fromJson (j : Json) : Option AbstractPlanNode :=
  match j.getField "type" with
  | some (.str ts) =>
    match planNodeTypeOfName ts with
    | some t =>
      match h2 : j.getField "children" with
      | some (.arr cjs) =>
        match AbstractPlanNode.childrenFromJson cjs with
        | some ch =>
          match j.getField "output_schema" with
          | some osj =>
            match OutputSchema.fromJson osj with
            | some os =>
              match j.getField "predicate" with
              | some pj =>
                match predicateFromJson pj with
                | some pr =>
                  match j.getField "is_for_update" with
                  | some (.bool u) =>
                    match j.getField "database_oid" with
                    | some (.num d) =>
                      match j.getField "namespace_oid" with
                      | some (.num nso) =>
                        match j.getField "table_oid" with
                        | some (.num toid) =>
                          match j.getField "column_oids" with
                          | some (.arr coj) =>
                            match oidListFromJson coj with
                            | some co => some (.mk t ch os pr u d nso co toid)
                            | none => none
                          | _ => none
                        | _ => none
                      | _ => none
                    | _ => none
                  | _ => none
                | none => none
              | _ => none
            | none => none
          | _ => none
        | none => none
      | _ => none
    | none => none
  | _ => none
termination_by sizeOf j
decreasing_by
  have h3 := getField_sizeOf h2
  simp at h3
  omega

/-- Deserialization of a child plan-node list, failing when any element
fails. -/
def AbstractPlanNode.childrenFromJson (js : List Json) : Option (List AbstractPlanNode) :=
  match js with
  | [] => some []
  | j :: rest =>
    match AbstractPlanNode.fromJson j, AbstractPlanNode.childrenFromJson rest with
    | some n, some rest2 => some (n :: rest2)
    | _, _ => none
termination_by sizeOf js
decreasing_by
  all_goals simp
  all_goals omega

end

/-- Modelled from the spec: `SeqScanPlanNode::ToJson` (its body is not
under the verified sources) emits the discriminant, all base-class
fields, the table id and the column-id sequence. -/
def SeqScanPlanNode.ToJson (n : SeqScanPlanNode) : Json :=
  AbstractPlanNode.toJson n.toAbstract

/-- Modelled from the spec: `SeqScanPlanNode::FromJson` (its body is not
under the verified sources) populates a default-constructed node from the
document — failing with the MalformedPlan error (embedded as `none`) when
the discriminant is not `SEQSCAN` or a required field is missing or
mis-shaped — and returns, next to the populated node, the freshly
allocated expression sub-trees (the predicate, then each output column's
expression) that the caller must re-attach. -/
def SeqScanPlanNode.FromJson (j : Json) : Option (SeqScanPlanNode × List Expr) :=
  match AbstractPlanNode.fromJson j with
  | some (.mk t ch os pr u d nso co toid) =>
    if t = PlanNodeType.SEQSCAN then
      some (⟨ch, os, pr, u, d, nso, co, toid⟩,
        (match pr with | some p => [p] | none => []) ++ os.columns.map (fun c => c.expr))
    else none
  | none => none

/-- The oid sequence emitted by the walk of the output-schema columns, in
order (the pure counterpart of the `for` loop over `GetColumns()` in
`CollectInputOids`). -/
def schemaCollectedOids : List OutputColumn → List col_oid_t
  | [] => []
  | col :: rest => collectedOids col.GetExpr ++ schemaCollectedOids rest

/-- Visibility of a column oid to the walk of the node's roots: the scan
predicate (when present) or some output-schema column's expression. -/
def SeqScanPlanNode.visibleInputOid (n : SeqScanPlanNode) (c : col_oid_t) : Bool :=
  (match n.GetScanPredicate with
   | some p => visibleOid c p
   | none => false) ||
  n.GetOutputSchema.GetColumns.any (fun col => visibleOid c col.GetExpr)

/-- Occurrence of a column oid at a `COLUMN_VALUE` node anywhere in the
node's roots: the scan predicate (when present) or some output-schema
column's expression. -/
def SeqScanPlanNode.referencesOid (n : SeqScanPlanNode) (c : col_oid_t) : Bool :=
  (match n.GetScanPredicate with
   | some p => mentionsOid c p
   | none => false) ||
  n.GetOutputSchema.GetColumns.any (fun col => mentionsOid c col.GetExpr)

/-- Well-formedness of every expression tree the node's walk starts from:
the scan predicate (when present) and every output-schema column's
expression. -/
def SeqScanPlanNode.wellFormedExprs (n : SeqScanPlanNode) : Bool :=
  (match n.GetScanPredicate with
   | some p => wellFormedExpr p
   | none => true) &&
  n.GetOutputSchema.GetColumns.all (fun col => wellFormedExpr col.GetExpr)

/-- The set of input oids determined by the scan predicate and the output
schema alone: the target set that `CollectInputOids` computes, read off
the two expression-tree roots and nothing else. -/
def inputOidsOf (pred : Option Expr) (schema : OutputSchema) : Finset col_oid_t :=
  ((match pred with
    | some p => collectedOids p
    | none => []) ++ schemaCollectedOids schema.GetColumns).toFinset

/-- Predicate of the running example: references columns 2 and 5. -/
def predExample : Expr :=
  .otherExpr .CONJUNCTION_AND [.columnValue 2 [], .columnValue 5 []]

/-- Output schema of the running example: references columns 1 and 3. -/
def schemaExample : OutputSchema :=
  ⟨[⟨.columnValue 1 []⟩, ⟨.columnValue 3 []⟩]⟩

/-- The spec's concrete scenario, built through the builder:
table oid 42, predicate referencing columns 2 and 5, output schema
referencing columns 1 and 3. -/
def exampleNode42 : SeqScanPlanNode :=
  ((((SeqScanPlanNode.Builder.new.SetTableOid 42).SetColumnOids
    [1, 3]).SetScanPredicate predExample).SetOutputSchema schemaExample).Build

/-- An independently built node with field values identical to
`exampleNode42`. -/
def exampleTwin42 : SeqScanPlanNode :=
  ((((SeqScanPlanNode.Builder.new.SetTableOid 42).SetColumnOids
    [1, 3]).SetScanPredicate predExample).SetOutputSchema schemaExample).Build

/-- A differently-typed scan variant carrying exactly the field values of
`exampleNode42`, for the safe-downcast scenario. -/
def indexScanTwin42 : AbstractPlanNode :=
  .mk PlanNodeType.INDEXSCAN exampleNode42.children exampleNode42.output_schema
    exampleNode42.scan_predicate exampleNode42.is_for_update
    exampleNode42.database_oid exampleNode42.namespace_oid
    exampleNode42.column_oids exampleNode42.table_oid

/-- A node with no predicate, an empty output schema and a non-empty
stored column list. -/
def nodeColsOnly : SeqScanPlanNode :=
  ((SeqScanPlanNode.Builder.new.SetTableOid 7).SetColumnOids [1, 2, 3]).Build

/-- A node straight out of a default builder: no predicate, empty schema,
empty column list, sentinel table oid. -/
def nodeEmptyAll : SeqScanPlanNode :=
  SeqScanPlanNode.Builder.new.Build

/-- A node whose predicate carries column 9 only inside a child of the
`COLUMN_VALUE` expression for column 7. -/
def nodeHiddenOid : SeqScanPlanNode :=
  ((SeqScanPlanNode.Builder.new.SetTableOid 11).SetScanPredicate
    (.columnValue 7 [.columnValue 9 []])).Build

mutual

theorem CollectOids_eq_append (result : List col_oid_t) (e : Expr) :
    CollectOids result e = result ++ collectedOids e := by
  match e with
  | .columnValue oid cs => simp [CollectOids, collectedOids]
  | .otherExpr t cs =>
    simp [CollectOids, collectedOids, CollectOidsChildren_eq_append result cs]

theorem CollectOidsChildren_eq_append (result : List col_oid_t) (es : List Expr) :
    CollectOidsChildren result es = result ++ collectedOidsChildren es := by
  match es with
  | [] => simp [CollectOidsChildren, collectedOidsChildren]
  | e :: rest =>
    have h1 := CollectOids_eq_append result e
    have h2 := CollectOidsChildren_eq_append (result ++ collectedOids e) rest
    simp [CollectOidsChildren, collectedOidsChildren, h1, h2]

end

theorem foldl_CollectOids_eq (cols : List OutputColumn) (init : List col_oid_t) :
    cols.foldl (fun r col => CollectOids r col.GetExpr) init =
      init ++ schemaCollectedOids cols := by
  induction cols generalizing init with
  | nil => simp [schemaCollectedOids]
  | cons col rest ih =>
    rw [List.foldl_cons, ih (CollectOids init col.GetExpr), CollectOids_eq_append]
    simp [schemaCollectedOids]

theorem CollectInputOids_eq (n : SeqScanPlanNode) :
    n.CollectInputOids =
      ((match n.GetScanPredicate with
        | some p => collectedOids p
        | none => []) ++ schemaCollectedOids n.GetOutputSchema.GetColumns).dedup := by
  unfold SeqScanPlanNode.CollectInputOids
  cases hp : n.GetScanPredicate with
  | none =>
    dsimp only
    simp [foldl_CollectOids_eq]
  | some p =>
    dsimp only
    rw [foldl_CollectOids_eq]
    simp [CollectOids_eq_append]

mutual

theorem mem_collectedOids_iff_visible (c : col_oid_t) :
    (e : Expr) → (c ∈ collectedOids e ↔ visibleOid c e = true)
  | .columnValue oid cs => by simp [collectedOids, visibleOid]
  | .otherExpr t cs => by
    simp [collectedOids, visibleOid, mem_collectedOidsChildren_iff_visible c cs]

theorem mem_collectedOidsChildren_iff_visible (c : col_oid_t) :
    (es : List Expr) → (c ∈ collectedOidsChildren es ↔ visibleOidChildren c es = true)
  | [] => by simp [collectedOidsChildren, visibleOidChildren]
  | e :: rest => by
    simp [collectedOidsChildren, visibleOidChildren,
      mem_collectedOids_iff_visible c e, mem_collectedOidsChildren_iff_visible c rest]

end

mutual

theorem visible_eq_mentions_of_wf (c : col_oid_t) :
    (e : Expr) → wellFormedExpr e = true → visibleOid c e = mentionsOid c e
  | .columnValue oid cs, h => by
    have : cs = [] := by simpa [wellFormedExpr] using h
    subst this
    simp [visibleOid, mentionsOid, mentionsOidChildren]
  | .otherExpr t cs, h => by
    have h2 : wellFormedExprChildren cs = true := by simpa [wellFormedExpr] using h
    simp [visibleOid, mentionsOid, visibleChildren_eq_mentions_of_wf c cs h2]

theorem visibleChildren_eq_mentions_of_wf (c : col_oid_t) :
    (es : List Expr) → wellFormedExprChildren es = true →
      visibleOidChildren c es = mentionsOidChildren c es
  | [], _ => by simp [visibleOidChildren, mentionsOidChildren]
  | e :: rest, h => by
    have h1 : wellFormedExpr e = true ∧ wellFormedExprChildren rest = true := by
      simpa [wellFormedExprChildren, Bool.and_eq_true] using h
    simp [visibleOidChildren, mentionsOidChildren,
      visible_eq_mentions_of_wf c e h1.1, visibleChildren_eq_mentions_of_wf c rest h1.2]

end

theorem mem_schemaCollectedOids_iff (c : col_oid_t) (cols : List OutputColumn) :
    c ∈ schemaCollectedOids cols ↔
      cols.any (fun col => visibleOid c col.GetExpr) = true := by
  induction cols with
  | nil => simp [schemaCollectedOids]
  | cons col rest ih =>
    simp [schemaCollectedOids, ih, mem_collectedOids_iff_visible]

theorem mem_CollectInputOids_iff_visible (n : SeqScanPlanNode) (c : col_oid_t) :
    c ∈ n.CollectInputOids ↔ n.visibleInputOid c = true := by
  rw [CollectInputOids_eq]
  unfold SeqScanPlanNode.visibleInputOid
  cases hp : n.GetScanPredicate with
  | none => simp [mem_schemaCollectedOids_iff]
  | some p =>
    simp [mem_schemaCollectedOids_iff, mem_collectedOids_iff_visible]

theorem any_visible_eq_any_mentions (c : col_oid_t) (cols : List OutputColumn)
    (h : ∀ col ∈ cols, wellFormedExpr col.GetExpr = true) :
    cols.any (fun col => visibleOid c col.GetExpr) =
      cols.any (fun col => mentionsOid c col.GetExpr) := by
  induction cols with
  | nil => rfl
  | cons col rest ih =>
    simp only [List.any_cons]
    rw [visible_eq_mentions_of_wf c _ (h col (by simp)),
      ih (fun x hx => h x (by simp [hx]))]

/-- C1: for every `SeqScanPlanNode` whose predicate and output-schema
column expressions form well-formed expression trees, `CollectInputOids`
returns exactly the deduplicated set of every column identifier carried
by a column-value expression reachable from the scan predicate (if
present) and from every output-schema column's expression, with each
identifier appearing exactly once in the result. -/
theorem collectInputOids_dedup_referenced_set (n : SeqScanPlanNode) (c : col_oid_t)
    (hwf : n.wellFormedExprs = true) :
    n.CollectInputOids.Nodup ∧
      (c ∈ n.CollectInputOids ↔ n.referencesOid c = true) := by
  constructor
  · rw [CollectInputOids_eq]
    exact List.nodup_dedup _
  · rw [mem_CollectInputOids_iff_visible]
    unfold SeqScanPlanNode.wellFormedExprs at hwf
    rw [Bool.and_eq_true, List.all_eq_true] at hwf
    obtain ⟨hp, hcols⟩ := hwf
    unfold SeqScanPlanNode.visibleInputOid SeqScanPlanNode.referencesOid
    cases hq : n.GetScanPredicate with
    | none =>
      simp only [hq]
      rw [any_visible_eq_any_mentions c _ hcols]
    | some p =>
      rw [hq] at hp
      simp only at hp
      simp only [hq]
      rw [visible_eq_mentions_of_wf c p hp,
        any_visible_eq_any_mentions c _ hcols]

/-- Witness for C1 at the spec's concrete scenario: table oid 42,
predicate referencing columns 2 and 5, output schema referencing columns
1 and 3; the result contains column 2 exactly once and equals the set
containing 1, 2, 3 and 5. -/
theorem collectInputOids_dedup_referenced_set_witness :
    exampleNode42.wellFormedExprs = true ∧
      (exampleNode42.CollectInputOids.Nodup ∧
        (2 ∈ exampleNode42.CollectInputOids ↔ exampleNode42.referencesOid 2 = true)) ∧
      exampleNode42.CollectInputOids.toFinset = ({1, 2, 3, 5} : Finset Nat) :=
  ⟨by decide, collectInputOids_dedup_referenced_set exampleNode42 2 (by decide), by decide⟩

theorem opEq_toAbstract_iff (A B : SeqScanPlanNode) :
    A.opEq B.toAbstract = true ↔ A = B := by
  cases A with
  | mk ch os pr u d nso co toid =>
    cases B with
    | mk ch2 os2 pr2 u2 d2 nso2 co2 toid2 =>
      simp [SeqScanPlanNode.opEq, SeqScanPlanNode.toAbstract,
        AbstractPlanNode.GetPlanNodeType, nodeBeqChildren_iff_eq,
        SeqScanPlanNode.mk.injEq, and_assoc]
      tauto

/-- C2: for every pair of `SeqScanPlanNode` values `A` and `B`, if
`A == B` (structural equality) holds then `Hash A = Hash B`. -/
theorem hash_agrees_with_equality (A B : SeqScanPlanNode)
    (h : A.opEq B.toAbstract = true) : A.Hash = B.Hash := by
  rw [(opEq_toAbstract_iff A B).mp h]

/-- Witness for C2: two independently built nodes with identical field
values compare equal and hash equal. -/
theorem hash_agrees_with_equality_witness :
    exampleNode42.opEq exampleTwin42.toAbstract = true ∧
      exampleNode42.Hash = exampleTwin42.Hash :=
  ⟨by decide, hash_agrees_with_equality exampleNode42 exampleTwin42 (by decide)⟩

/-- C4: for every `SeqScanPlanNode` and every `AbstractPlanNode` `rhs`,
`operator==` is total (never raises): when the discriminant of `rhs`
differs from `SEQSCAN` it returns false immediately, and otherwise it
returns the conjunction of the base scan-node equality, table-id
equality, and order-sensitive element-wise equality of the stored
column-id sequences. -/
theorem opEq_guard_and_components (n : SeqScanPlanNode) (rhs : AbstractPlanNode) :
    (rhs.GetPlanNodeType ≠ PlanNodeType.SEQSCAN → n.opEq rhs = false) ∧
    (rhs.GetPlanNodeType = PlanNodeType.SEQSCAN →
      (n.opEq rhs = true ↔
        ((n.children = rhs.GetChildren ∧ n.output_schema = rhs.GetOutputSchema ∧
          n.scan_predicate = rhs.GetScanPredicate ∧
          n.is_for_update = rhs.IsForUpdate ∧
          n.database_oid = rhs.GetDatabaseOid ∧
          n.namespace_oid = rhs.GetNamespaceOid) ∧
         n.table_oid = rhs.GetTableOid ∧ n.column_oids = rhs.GetColumnOids))) := by
  cases rhs with
  | mk t ch os pr u d nso co toid =>
    constructor
    · intro h
      simp only [AbstractPlanNode.GetPlanNodeType] at h
      simp [SeqScanPlanNode.opEq, AbstractPlanNode.GetPlanNodeType, h]
    · intro h
      simp only [AbstractPlanNode.GetPlanNodeType] at h
      subst h
      simp [SeqScanPlanNode.opEq, AbstractPlanNode.GetPlanNodeType,
        AbstractPlanNode.GetChildren, AbstractPlanNode.GetOutputSchema,
        AbstractPlanNode.GetScanPredicate, AbstractPlanNode.IsForUpdate,
        AbstractPlanNode.GetDatabaseOid, AbstractPlanNode.GetNamespaceOid,
        AbstractPlanNode.GetColumnOids, AbstractPlanNode.GetTableOid,
        nodeBeqChildren_iff_eq, and_assoc]

/-- Witness for C4 at the spec's safe-downcast scenario: a sequential
scan and a differently-typed scan variant with identical table and
column fields compare unequal. -/
theorem opEq_guard_and_components_witness :
    indexScanTwin42.GetPlanNodeType ≠ PlanNodeType.SEQSCAN ∧
      exampleNode42.opEq indexScanTwin42 = false :=
  ⟨by decide, (opEq_guard_and_components exampleNode42 indexScanTwin42).1 (by decide)⟩

/-- C5: a node built via `SetColumnOids v` then `Build` stores `v`
verbatim — `GetColumnIds` returns a list equal to `v` element for
element in order, with no deduplication and no reordering. -/
theorem build_keeps_column_oids_verbatim (b : SeqScanPlanNode.Builder)
    (v : List col_oid_t) :
    ((b.SetColumnOids v).Build).GetColumnIds = v := rfl

/-- C6: for every `SeqScanPlanNode` with no scan predicate and an output
schema containing zero columns, `CollectInputOids` returns the empty
collection. -/
theorem collectInputOids_empty_when_no_roots (n : SeqScanPlanNode)
    (hp : n.GetScanPredicate = none)
    (hs : n.GetOutputSchema.GetColumns = []) :
    n.CollectInputOids = [] := by
  rw [CollectInputOids_eq, hp, hs]
  simp [schemaCollectedOids]

/-- Witness for C6: a default-built node has no predicate, an empty
output schema, and empty collected input oids. -/
theorem collectInputOids_empty_when_no_roots_witness :
    nodeEmptyAll.GetScanPredicate = none ∧
      nodeEmptyAll.GetOutputSchema.GetColumns = [] ∧
      nodeEmptyAll.CollectInputOids = [] :=
  ⟨rfl, rfl, collectInputOids_empty_when_no_roots nodeEmptyAll rfl rfl⟩

/-- C7: `Build()` without `SetTableOid` or without `SetColumnOids` does
not fail — it yields a node with the default/sentinel table id and an
empty column-oid list respectively, with no field-presence validation. -/
theorem build_without_required_setters_defaults (t : table_oid_t)
    (v : List col_oid_t) :
    SeqScanPlanNode.Builder.new.Build.GetTableOid = 0 ∧
      SeqScanPlanNode.Builder.new.Build.GetColumnIds = [] ∧
      ((SeqScanPlanNode.Builder.new.SetColumnOids v).Build).GetTableOid = 0 ∧
      ((SeqScanPlanNode.Builder.new.SetTableOid t).Build).GetColumnIds = [] :=
  ⟨rfl, rfl, rfl, rfl⟩

/-- C8: `CollectInputOids` is pure and deterministic — its result,
compared as a set, is a function of the scan predicate and the
output-schema expressions alone, so two calls over the same expression
trees return the same collection of identifiers. -/
theorem collectInputOids_pure_deterministic (n : SeqScanPlanNode) :
    n.CollectInputOids.toFinset =
      inputOidsOf n.GetScanPredicate n.GetOutputSchema := by
  rw [CollectInputOids_eq]
  unfold inputOidsOf
  ext a
  simp [List.mem_dedup]

/-- C9: the recursive walk used by `CollectInputOids` never descends into
the children of a `COLUMN_VALUE` expression — at such a node it records
the column identifier and stops — so a column identifier that appears
only inside a child of a column-value expression (it occurs in the
node's roots, but never at a walk-visible position) is not included in
the result of `CollectInputOids`. -/
theorem collectOids_stops_at_column_value (oid : col_oid_t) (cs : List Expr)
    (n : SeqScanPlanNode) (c : col_oid_t)
    (_hocc : n.referencesOid c = true)
    (hhidden : n.visibleInputOid c = false) :
    CollectOids [] (Expr.columnValue oid cs) = [oid] ∧
      c ∉ n.CollectInputOids := by
  refine ⟨by simp [CollectOids], ?_⟩
  rw [mem_CollectInputOids_iff_visible]
  simp [hhidden]

/-- Witness for C9: a predicate that is the column-value expression for
column 7 with a child referencing column 9 collects exactly 7; column 9
occurs in the tree but never in the result. -/
theorem collectOids_stops_at_column_value_witness :
    nodeHiddenOid.referencesOid 9 = true ∧
      nodeHiddenOid.visibleInputOid 9 = false ∧
      (CollectOids [] (Expr.columnValue 7 [Expr.columnValue 9 []]) = [7] ∧
        9 ∉ nodeHiddenOid.CollectInputOids) :=
  ⟨by decide, by decide,
    collectOids_stops_at_column_value 7 [Expr.columnValue 9 []] nodeHiddenOid 9
      (by decide) (by decide)⟩

/-- C10: the result of `CollectInputOids` is independent of the stored
`column_oids_` list — it is computed solely from the predicate and the
output-schema expressions. -/
theorem collectInputOids_independent_of_column_oids (n1 n2 : SeqScanPlanNode)
    (hp : n1.GetScanPredicate = n2.GetScanPredicate)
    (hs : n1.GetOutputSchema = n2.GetOutputSchema) :
    n1.CollectInputOids = n2.CollectInputOids := by
  rw [CollectInputOids_eq, CollectInputOids_eq, hp, hs]

/-- Witness for C10: a node with no predicate, an empty output schema and
the non-empty stored column list 1, 2, 3 collects the same (empty)
result as a default node. -/
theorem collectInputOids_independent_of_column_oids_witness :
    nodeColsOnly.GetScanPredicate = nodeEmptyAll.GetScanPredicate ∧
      nodeColsOnly.GetOutputSchema = nodeEmptyAll.GetOutputSchema ∧
      nodeColsOnly.GetColumnIds = [1, 2, 3] ∧
      nodeColsOnly.CollectInputOids = nodeEmptyAll.CollectInputOids ∧
      nodeColsOnly.CollectInputOids = [] :=
  ⟨rfl, rfl, rfl,
    collectInputOids_independent_of_column_oids nodeColsOnly nodeEmptyAll rfl rfl,
    by decide⟩

theorem otherExprTypeOfName_typeName (t : OtherExprType) :
    otherExprTypeOfName t.typeName = some t := by
  cases t <;> rfl

theorem typeName_ne_COLUMN_VALUE (t : OtherExprType) :
    ¬ t.typeName = "COLUMN_VALUE" := by
  cases t <;> decide

theorem planNodeTypeOfName_typeName (t : PlanNodeType) :
    planNodeTypeOfName t.typeName = some t := by
  cases t <;> rfl

mutual

theorem expr_fromJson_toJson : (e : Expr) → Expr.fromJson e.toJson = some e
  | .columnValue oid cs => by
    have ih := exprChildren_fromJson_toJson cs
    simp [Expr.toJson, Expr.fromJson, Json.getField, lookupField, ih]
  | .otherExpr t cs => by
    have ih := exprChildren_fromJson_toJson cs
    simp [Expr.toJson, Expr.fromJson, Json.getField, lookupField, ih,
      typeName_ne_COLUMN_VALUE t, otherExprTypeOfName_typeName t]

theorem exprChildren_fromJson_toJson :
    (es : List Expr) → Expr.childrenFromJson (Expr.childrenToJson es) = some es
  | [] => by simp [Expr.childrenToJson, Expr.childrenFromJson]
  | e :: rest => by
    have ih1 := expr_fromJson_toJson e
    have ih2 := exprChildren_fromJson_toJson rest
    simp [Expr.childrenToJson, Expr.childrenFromJson, ih1, ih2]

end

theorem expr_toJson_isObj (e : Expr) : ∃ fs, e.toJson = Json.obj fs := by
  cases e <;> exact ⟨_, rfl⟩

theorem predicate_fromJson_toJson (pr : Option Expr) :
    predicateFromJson (predicateToJson pr) = some pr := by
  cases pr with
  | none => rfl
  | some e =>
    obtain ⟨fs, hfs⟩ := expr_toJson_isObj e
    calc predicateFromJson (predicateToJson (some e))
        = predicateFromJson (Json.obj fs) := by rw [predicateToJson, hfs]
      _ = (Expr.fromJson (Json.obj fs)).map some := by simp [predicateFromJson]
      _ = (Expr.fromJson e.toJson).map some := by rw [hfs]
      _ = some (some e) := by rw [expr_fromJson_toJson e]; rfl

theorem outputColumns_fromJson_map (cols : List OutputColumn) :
    outputColumnsFromJson (cols.map OutputColumn.toJson) = some cols := by
  induction cols with
  | nil => rfl
  | cons c rest ih =>
    simp [outputColumnsFromJson, OutputColumn.toJson, OutputColumn.fromJson,
      Json.getField, lookupField, expr_fromJson_toJson c.expr, ih]

theorem outputSchema_fromJson_toJson (s : OutputSchema) :
    OutputSchema.fromJson s.toJson = some s := by
  simp [OutputSchema.toJson, OutputSchema.fromJson, Json.getField, lookupField,
    outputColumns_fromJson_map s.columns]

theorem oidList_fromJson_map (co : List Nat) :
    oidListFromJson (co.map Json.num) = some co := by
  induction co with
  | nil => rfl
  | cons x rest ih => simp [oidListFromJson, ih]

mutual

theorem node_fromJson_toJson :
    (x : AbstractPlanNode) → AbstractPlanNode.fromJson x.toJson = some x
  | .mk t ch os pr u d nso co toid => by
    have ih := nodeChildren_fromJson_toJson ch
    simp [AbstractPlanNode.toJson, AbstractPlanNode.fromJson, Json.getField,
      lookupField, planNodeTypeOfName_typeName t, ih,
      outputSchema_fromJson_toJson os, predicate_fromJson_toJson pr,
      oidList_fromJson_map co]

theorem nodeChildren_fromJson_toJson :
    (xs : List AbstractPlanNode) →
      AbstractPlanNode.childrenFromJson (AbstractPlanNode.childrenToJson xs) = some xs
  | [] => by simp [AbstractPlanNode.childrenToJson, AbstractPlanNode.childrenFromJson]
  | x :: rest => by
    have ih1 := node_fromJson_toJson x
    have ih2 := nodeChildren_fromJson_toJson rest
    simp [AbstractPlanNode.childrenToJson, AbstractPlanNode.childrenFromJson, ih1, ih2]

end

/-- C3: for every validly-built `SeqScanPlanNode` `A`, applying `FromJson`
to `ToJson A` succeeds and populates a node `B` with `A == B` — the
serialization round trip is lossless (the freshly allocated expression
sub-trees are returned alongside for re-attachment). -/
theorem fromJson_toJson_roundtrip (A : SeqScanPlanNode) :
    ∃ B exprs, SeqScanPlanNode.FromJson A.ToJson = some (B, exprs) ∧
      A.opEq B.toAbstract = true := by
  cases A with
  | mk ch os pr u d nso co toid =>
    refine ⟨⟨ch, os, pr, u, d, nso, co, toid⟩,
      (match pr with | some p => [p] | none => []) ++ os.columns.map (fun c => c.expr),
      ?_, ?_⟩
    · simp [SeqScanPlanNode.ToJson, SeqScanPlanNode.FromJson,
        SeqScanPlanNode.toAbstract, node_fromJson_toJson]
    · exact (opEq_toAbstract_iff _ _).mpr rfl

end Terrier
